import Mathlib

/-!
Shallow embedding of the streaming-I/O adapter in `src/inputstream.rs`:
the four native callbacks `read`, `seek`, `tell`, `get_size` that wrap a
generic `T : Read + Seek` source behind the engine's callback table.
-/

/-- Outcome of one adapter callback: a normal `i64` return value, or a
Rust panic (from `.unwrap()` on an `Err`) unwinding out of the callback. -/
inductive Outcome where
  | ret (v : Int)
  | panicked
deriving DecidableEq

/-- Shallow embedding of a Rust value of some type `T : Read + Seek`: an
in-memory byte sequence with a current position, plus flags describing how
its own `read`/`seek` methods behave.  `readFails`/`seekFails` model a
source whose underlying I/O calls return `Err`; `extensible = false`
models a fixed-size source that rejects seeks beyond its end. -/
structure Source where
  data : List Nat
  pos : Nat
  readFails : Bool := false
  seekFails : Bool := false
  extensible : Bool := true
deriving DecidableEq

/-- The `SeekFrom` variants used by the adapter (`Start`, `Current`, `End`). -/
inductive SeekFrom where
  | start (o : Nat)
  | current (off : Int)
  | fromEnd (off : Int)
deriving DecidableEq

/-- Number of bytes remaining from the current position. -/
def Source.remaining (s : Source) : Nat := s.data.length - s.pos

/-- `stream.take(n).read_to_end(&mut buf)` on the underlying source: on
success it reads exactly `min n remaining` bytes starting at the current
position and advances the position by that count. -/
def srcReadToEnd (s : Source) (n : Nat) : Except Unit (List Nat × Source) :=
  if s.readFails then .error ()
  else
    let cnt := min n s.remaining
    .ok ((s.data.drop s.pos).take cnt, { s with pos := s.pos + cnt })

/-- The absolute target offset denoted by a `SeekFrom` on a given source. -/
def seekTarget (s : Source) : SeekFrom → Int
  | .start o => (o : Int)
  | .current off => (s.pos : Int) + off
  | .fromEnd off => (s.data.length : Int) + off

/-- `stream.seek(f)` on the underlying source: fails when the source's
seek fails, when the target offset is negative, or when the source is
fixed-size and the target lies beyond its end; otherwise it returns the
new absolute position and moves there. -/
def srcSeek (s : Source) (f : SeekFrom) : Except Unit (Nat × Source) :=
  if s.seekFails then .error ()
  else if seekTarget s f < 0 then .error ()
  else if s.extensible = false ∧ (s.data.length : Int) < seekTarget s f then .error ()
  else .ok ((seekTarget s f).toNat, { s with pos := (seekTarget s f).toNat })

/-- Reinterpretation of a `u64`/`usize` value as an `i64` (Rust `as i64`). -/
def toSigned64 (n : Nat) : Int :=
  if n % 2 ^ 64 < 2 ^ 63 then ((n % 2 ^ 64 : Nat) : Int)
  else ((n % 2 ^ 64 : Nat) : Int) - 2 ^ 64

/-- Reinterpretation of an `i64` value as a `u64` (Rust `as u64`). -/
def toUnsigned64 (p : Int) : Nat := (p % 2 ^ 64).toNat

/-- Result of the `read` callback: the returned value, the number of bytes
`ptr::copy_nonoverlapping` wrote into the native destination buffer, the
defined bytes among them (the contents of the internal `buf`; any copied
bytes past `buf.length` are read from beyond the end of `buf`'s
allocation), and the source state afterwards. -/
structure ReadResult where
  ret : Outcome
  copiedLen : Nat
  copied : List Nat
  after : Source
deriving DecidableEq

namespace InputStream

/-- The `read` callback: `0` for a zero-length request, otherwise
`take(size).read_to_end` into `buf`, then on `Ok` a
`copy_nonoverlapping(buf.as_ptr(), data, size as usize)` and the byte
count as return value; `-1` on read error or negative request. -/
def read (s : Source) (size : Int) : ReadResult :=
  if size = 0 then ⟨.ret 0, 0, [], s⟩
  else if 0 < size then
    match srcReadToEnd s size.toNat with
    | .ok (buf, s1) => ⟨.ret (toSigned64 buf.length), size.toNat, buf, s1⟩
    | .error _ => ⟨.ret (-1), 0, [], s⟩
  else ⟨.ret (-1), 0, [], s⟩

/-- The `get_size` callback: `seek(Current(0)).unwrap()` to record the
position, `seek(End(0)).unwrap()` to learn the size, then a best-effort
`seek(Start(pos))` whose result is discarded; returns the size. -/
def get_size (s : Source) : Outcome × Source :=
  match srcSeek s (.current 0) with
  | .error _ => (.panicked, s)
  | .ok (pos, s1) =>
    match srcSeek s1 (.fromEnd 0) with
    | .error _ => (.panicked, s1)
    | .ok (size, s2) =>
      match srcSeek s2 (.start pos) with
      | .ok (_, s3) => (.ret (toSigned64 size), s3)
      | .error _ => (.ret (toSigned64 size), s2)

/-- The `tell` callback: `seek(Current(0)).unwrap()` cast to `i64`. -/
def tell (s : Source) : Outcome × Source :=
  match srcSeek s (.current 0) with
  | .error _ => (.panicked, s)
  | .ok (p, s1) => (.ret (toSigned64 p), s1)

/-- The `seek` callback: `seek(Start(position as u64))`, returning the new
position cast to `i64` on success and `-1` on error. -/
def seek (position : Int) (s : Source) : Outcome × Source :=
  match srcSeek s (.start (toUnsigned64 position)) with
  | .ok (n, s1) => (.ret (toSigned64 n), s1)
  | .error _ => (.ret (-1), s)

end InputStream

/-- A 10-byte in-memory source positioned at byte 8, as in the spec's
scenario 6 (`seek_to(8)` then `read_chunk(4)`). -/
def tenAt8 : Source := { data := [0, 1, 2, 3, 4, 5, 6, 7, 8, 9], pos := 8 }

/-- A source whose underlying `seek` always fails with an I/O error. -/
def badSeekSrc : Source := { data := [0, 1, 2, 3], pos := 1, seekFails := true }

/-- helper facts -/
theorem toSigned64_small (n : Nat) (h : n < 2 ^ 63) : toSigned64 n = (n : Int) := by
  have h1 : n % 2 ^ 64 = n := Nat.mod_eq_of_lt (by omega)
  unfold toSigned64
  rw [h1]
  split
  · rfl
  · omega

theorem toUnsigned64_ofNat (O : Nat) (h : O < 2 ^ 64) : toUnsigned64 (O : Int) = O := by
  unfold toUnsigned64
  omega

theorem srcSeek_current0 (s : Source) (hf : s.seekFails = false)
    (hp : s.pos ≤ s.data.length) : srcSeek s (.current 0) = .ok (s.pos, s) := by
  unfold srcSeek
  rw [if_neg (show ¬ s.seekFails = true by simp [hf])]
  have h1 : seekTarget s (.current 0) = (s.pos : Int) := by
    unfold seekTarget
    ring
  rw [h1]
  have h2 : ¬ ((s.pos : Int) < 0) := by omega
  rw [if_neg h2]
  have h3 : ¬ (s.extensible = false ∧ (s.data.length : Int) < (s.pos : Int)) := by
    rintro ⟨-, h⟩
    omega
  rw [if_neg h3]
  rfl

theorem srcSeek_end0 (s : Source) (hf : s.seekFails = false) :
    srcSeek s (.fromEnd 0) = .ok (s.data.length, { s with pos := s.data.length }) := by
  unfold srcSeek
  rw [if_neg (show ¬ s.seekFails = true by simp [hf])]
  have h1 : seekTarget s (.fromEnd 0) = (s.data.length : Int) := by
    unfold seekTarget
    ring
  rw [h1]
  have h2 : ¬ ((s.data.length : Int) < 0) := by omega
  rw [if_neg h2]
  have h3 : ¬ (s.extensible = false ∧ (s.data.length : Int) < (s.data.length : Int)) := by
    rintro ⟨-, h⟩
    omega
  rw [if_neg h3]
  rfl

theorem srcSeek_start_le (s : Source) (o : Nat) (hf : s.seekFails = false)
    (ho : o ≤ s.data.length) : srcSeek s (.start o) = .ok (o, { s with pos := o }) := by
  unfold srcSeek
  rw [if_neg (show ¬ s.seekFails = true by simp [hf])]
  have h1 : seekTarget s (.start o) = (o : Int) := by
    unfold seekTarget
    ring
  rw [h1]
  have h2 : ¬ ((o : Int) < 0) := by omega
  rw [if_neg h2]
  have h3 : ¬ (s.extensible = false ∧ (s.data.length : Int) < (o : Int)) := by
    rintro ⟨-, h⟩
    omega
  rw [if_neg h3]
  rfl

theorem srcSeek_start_ext (s : Source) (o : Nat) (hf : s.seekFails = false)
    (hx : s.extensible = true) : srcSeek s (.start o) = .ok (o, { s with pos := o }) := by
  unfold srcSeek
  rw [if_neg (show ¬ s.seekFails = true by simp [hf])]
  have h1 : seekTarget s (.start o) = (o : Int) := by
    unfold seekTarget
    ring
  rw [h1]
  have h2 : ¬ ((o : Int) < 0) := by omega
  rw [if_neg h2]
  have h3 : ¬ (s.extensible = false ∧ (s.data.length : Int) < (o : Int)) := by
    rintro ⟨hc, -⟩
    rw [hx] at hc
    exact Bool.true_eq_false.mp hc
  rw [if_neg h3]
  rfl

/-- C1: on the spec's own scenario (10-byte source at position 8, request
of 4 bytes) the callback returns 2 and advances the position by 2 as the
claim states, but the copy into the destination buffer is of 4 bytes (the
requested length), not of the 2 bytes actually read: `copy_nonoverlapping`
is invoked with `size`, overrunning the 2-byte internal buffer. -/
theorem read_copies_requested_length_not_bytes_read :
    (InputStream.read tenAt8 4).ret = .ret 2 ∧
    (InputStream.read tenAt8 4).copied = [8, 9] ∧
    (InputStream.read tenAt8 4).after.pos = 10 ∧
    (InputStream.read tenAt8 4).copiedLen = 4 ∧
    (InputStream.read tenAt8 4).copiedLen ≠ 2 := by
  decide

/-- C2: the `tell` and `get_size` callbacks call `.unwrap()` on the result
of the underlying seek, so on a source whose seek fails with an I/O error
they panic and unwind out of the native callback instead of returning an
`i64`; `read` and `seek` on the same source do return normally (`-1`). -/
theorem tell_and_get_size_panic_on_seek_error :
    (InputStream.tell badSeekSrc).1 = Outcome.panicked ∧
    (InputStream.get_size badSeekSrc).1 = Outcome.panicked ∧
    (InputStream.seek 2 badSeekSrc).1 = Outcome.ret (-1) ∧
    (InputStream.read badSeekSrc 2).ret = Outcome.ret 2 := by
  decide

/-- C3: when the underlying source fails with an I/O error during a
positive-length read, the `read` callback returns exactly `-1` and copies
no bytes into the destination; when the underlying seek fails, the `seek`
callback returns exactly `-1`. -/
theorem io_error_returns_exactly_minus_one (s t : Source) (n p : Int)
    (hr : s.readFails = true) (hn : 0 < n) (ht : t.seekFails = true) :
    (InputStream.read s n).ret = .ret (-1) ∧
    (InputStream.read s n).copiedLen = 0 ∧
    (InputStream.read s n).copied = [] ∧
    (InputStream.seek p t).1 = .ret (-1) := by
  have hn0 : n ≠ 0 := by omega
  unfold InputStream.read InputStream.seek srcReadToEnd srcSeek
  rw [hr, ht]
  simp [hn0, hn]

/-- Witness for C3 at a concrete failing source and request. -/
theorem io_error_returns_exactly_minus_one_witness :
    ({ data := [5, 6], pos := 0, readFails := true } : Source).readFails = true ∧
    (0 : Int) < 3 ∧
    badSeekSrc.seekFails = true ∧
    ((InputStream.read { data := [5, 6], pos := 0, readFails := true } 3).ret = .ret (-1) ∧
     (InputStream.read { data := [5, 6], pos := 0, readFails := true } 3).copiedLen = 0 ∧
     (InputStream.read { data := [5, 6], pos := 0, readFails := true } 3).copied = [] ∧
     (InputStream.seek 7 badSeekSrc).1 = .ret (-1)) :=
  ⟨rfl, by decide, rfl,
   io_error_returns_exactly_minus_one { data := [5, 6], pos := 0, readFails := true }
     badSeekSrc 3 7 rfl (by decide) rfl⟩

/-- C4: a zero-length read returns `0`, copies nothing, and leaves the
source completely unchanged; it is a success, not an error. -/
theorem read_zero_is_noop_success (s : Source) :
    InputStream.read s 0 = ⟨.ret 0, 0, [], s⟩ := by
  unfold InputStream.read
  simp

/-- C9: a negative-length read falls through both the `== 0` and `> 0`
branches and returns the sentinel `-1`, copying nothing and leaving the
source unchanged; no underlying read is even attempted. -/
theorem read_negative_returns_sentinel (s : Source) (n : Int) (hn : n < 0) :
    InputStream.read s n = ⟨.ret (-1), 0, [], s⟩ := by
  have h0 : ¬ (n = 0) := by omega
  have h1 : ¬ (0 < n) := by omega
  unfold InputStream.read
  rw [if_neg h0, if_neg h1]

/-- Witness for C9 at a concrete source and request length `-3`. -/
theorem read_negative_returns_sentinel_witness :
    (-3 : Int) < 0 ∧
    InputStream.read tenAt8 (-3) = ⟨.ret (-1), 0, [], tenAt8⟩ :=
  ⟨by decide, read_negative_returns_sentinel tenAt8 (-3) (by decide)⟩

/-- A fixed-size (non-extensible) 4-byte source at position 0. -/
def fixedSrc : Source := { data := [0, 1, 2, 3], pos := 0, extensible := false }

/-- C5: on a source whose seeks succeed, `get_size` returns the total byte
length of the source, obtained by recording the current position, seeking
to the end, and seeking back. -/
theorem get_size_returns_total_length (s : Source) (hf : s.seekFails = false)
    (hp : s.pos ≤ s.data.length) (hlen : s.data.length < 2 ^ 63) :
    (InputStream.get_size s).1 = .ret (s.data.length : Int) := by
  have e1 := srcSeek_current0 s hf hp
  have e2 := srcSeek_end0 s hf
  have e3 := srcSeek_start_le { s with pos := s.data.length } s.pos hf hp
  simp only [InputStream.get_size, e1, e2, e3]
  exact congrArg Outcome.ret (toSigned64_small _ hlen)

/-- Witness for C5 on the 10-byte in-memory source of the spec's scenario:
`get_total_size() == 10`. -/
theorem get_size_returns_total_length_witness :
    tenAt8.seekFails = false ∧ tenAt8.pos ≤ tenAt8.data.length ∧
    tenAt8.data.length < 2 ^ 63 ∧
    (InputStream.get_size tenAt8).1 = .ret (tenAt8.data.length : Int) :=
  ⟨rfl, by decide, by decide,
   get_size_returns_total_length tenAt8 rfl (by decide) (by decide)⟩

/-- C6: on a source whose seeks succeed and whose starting position is
valid (within the data), `get_size` leaves the position unchanged and a
subsequent `tell` returns the starting position. -/
theorem get_size_preserves_position (s : Source) (hf : s.seekFails = false)
    (hp : s.pos ≤ s.data.length) (hlen : s.data.length < 2 ^ 63) :
    (InputStream.get_size s).2.pos = s.pos ∧
    (InputStream.tell (InputStream.get_size s).2).1 = .ret (s.pos : Int) := by
  have e1 := srcSeek_current0 s hf hp
  have e2 := srcSeek_end0 s hf
  have e3 := srcSeek_start_le { s with pos := s.data.length } s.pos hf hp
  have hgs : (InputStream.get_size s).2 = s := by
    simp only [InputStream.get_size, e1, e2, e3]
  refine ⟨by rw [hgs], ?_⟩
  rw [hgs]
  simp only [InputStream.tell, e1]
  exact congrArg Outcome.ret (toSigned64_small _ (by omega))

/-- Witness for C6 on the 10-byte source positioned at 8. -/
theorem get_size_preserves_position_witness :
    tenAt8.seekFails = false ∧ tenAt8.pos ≤ tenAt8.data.length ∧
    tenAt8.data.length < 2 ^ 63 ∧
    ((InputStream.get_size tenAt8).2.pos = tenAt8.pos ∧
     (InputStream.tell (InputStream.get_size tenAt8).2).1 = .ret (tenAt8.pos : Int)) :=
  ⟨rfl, by decide, by decide,
   get_size_preserves_position tenAt8 rfl (by decide) (by decide)⟩

/-- C7: for any offset `O` within `[0, size]` on a source whose seeks
succeed, `seek(O)` returns `O` and a subsequent `tell` also returns `O`. -/
theorem seek_roundtrip (s : Source) (O : Nat) (hf : s.seekFails = false)
    (hO : O ≤ s.data.length) (hlen : s.data.length < 2 ^ 63) :
    (InputStream.seek (O : Int) s).1 = .ret (O : Int) ∧
    (InputStream.tell (InputStream.seek (O : Int) s).2).1 = .ret (O : Int) := by
  have hu : toUnsigned64 (O : Int) = O := toUnsigned64_ofNat O (by omega)
  have e1 := srcSeek_start_le s O hf hO
  have hOsmall : toSigned64 O = (O : Int) := toSigned64_small O (by omega)
  have hseek : InputStream.seek (O : Int) s = (.ret (toSigned64 O), { s with pos := O }) := by
    simp only [InputStream.seek, hu, e1]
  rw [hseek]
  refine ⟨congrArg Outcome.ret hOsmall, ?_⟩
  have e2 := srcSeek_current0 { s with pos := O } hf hO
  simp only [InputStream.tell, e2]
  exact congrArg Outcome.ret hOsmall

/-- Witness for C7: `seek_to(8)` returns 8 and `tell_position()` then
returns 8 on the 10-byte in-memory source. -/
theorem seek_roundtrip_witness :
    tenAt8.seekFails = false ∧ (8 : Nat) ≤ tenAt8.data.length ∧
    tenAt8.data.length < 2 ^ 63 ∧
    ((InputStream.seek ((8 : Nat) : Int) tenAt8).1 = .ret ((8 : Nat) : Int) ∧
     (InputStream.tell (InputStream.seek ((8 : Nat) : Int) tenAt8).2).1 =
       .ret ((8 : Nat) : Int)) :=
  ⟨rfl, by decide, by decide, seek_roundtrip tenAt8 8 rfl (by decide) (by decide)⟩

/-- C8: on a fixed-size (non-extensible) source, seeking to `size + 1`
returns the sentinel `-1`, whether or not the source's own seek call can
also fail. -/
theorem seek_beyond_end_fixed_size (s : Source) (hx : s.extensible = false)
    (hlen : s.data.length + 1 < 2 ^ 64) :
    (InputStream.seek ((s.data.length : Int) + 1) s).1 = .ret (-1) := by
  have hu : toUnsigned64 ((s.data.length : Int) + 1) = s.data.length + 1 := by
    unfold toUnsigned64
    omega
  unfold InputStream.seek
  rw [hu]
  unfold srcSeek
  by_cases hsf : s.seekFails = true
  · rw [if_pos hsf]
  · rw [if_neg hsf]
    have ht : seekTarget s (.start (s.data.length + 1)) = (s.data.length : Int) + 1 := by
      unfold seekTarget
      push_cast
      ring
    rw [ht]
    rw [if_neg (show ¬ ((s.data.length : Int) + 1 < 0) by omega)]
    rw [if_pos (show s.extensible = false ∧ (s.data.length : Int) < (s.data.length : Int) + 1
          from ⟨hx, by omega⟩)]

/-- Witness for C8: seeking to 5 on the fixed-size 4-byte source
returns `-1`. -/
theorem seek_beyond_end_fixed_size_witness :
    fixedSrc.extensible = false ∧ fixedSrc.data.length + 1 < 2 ^ 64 ∧
    (InputStream.seek ((fixedSrc.data.length : Int) + 1) fixedSrc).1 = .ret (-1) :=
  ⟨rfl, by decide, seek_beyond_end_fixed_size fixedSrc rfl (by decide)⟩

/-- C10: a negative offset is not rejected up front: it is cast to the
unsigned 64-bit value `p + 2^64` and the underlying seek is attempted at
that huge offset, so on an extensible non-failing source the position
actually becomes `p + 2^64` and the return value is the underlying
position cast back to `i64`. -/
theorem seek_negative_offset_wraps (s : Source) (p : Int) (hp : p < 0)
    (hp2 : -(2 ^ 64) ≤ p) (hx : s.extensible = true) (hf : s.seekFails = false) :
    (InputStream.seek p s).2.pos = (p + 2 ^ 64).toNat ∧
    (InputStream.seek p s).1 = .ret (toSigned64 (p + 2 ^ 64).toNat) := by
  have hu : toUnsigned64 p = (p + 2 ^ 64).toNat := by
    unfold toUnsigned64
    omega
  have e1 := srcSeek_start_ext s ((p + 2 ^ 64).toNat) hf hx
  simp only [InputStream.seek, hu, e1]
  exact ⟨trivial, trivial⟩

/-- Witness for C10: `seek_to(-1)` on the extensible 10-byte source moves
the position to `2^64 - 1` and returns that value wrapped to `-1`. -/
theorem seek_negative_offset_wraps_witness :
    (-1 : Int) < 0 ∧ (-(2 ^ 64) : Int) ≤ -1 ∧
    ((InputStream.seek (-1) tenAt8).2.pos = ((-1 : Int) + 2 ^ 64).toNat ∧
     (InputStream.seek (-1) tenAt8).1 = .ret (toSigned64 ((-1 : Int) + 2 ^ 64).toNat)) :=
  ⟨by decide, by decide, seek_negative_offset_wraps tenAt8 (-1) (by decide) (by decide) rfl rfl⟩
